import Mathlib

/-!
Verification of the censored-value treatment engine of `utils_censo.py`
(Censo 2020 table-cleaning utilities).

A pandas `DataFrame` is shallowly embedded as an ordered list of named
columns.  A numeric cell is `Option ℚ`: `none` models the floating-point
`NaN` (a missing value), `some q` an ordinary number.  Non-numeric columns
carry booleans (the derived flag columns) or opaque strings.  Fallible
operations (the Python functions raise `ValueError` for a bad method string
and `KeyError` for a missing column label) return `Except TratErr`.
Purity of the embedding mirrors the documented contract that the input
frame is never mutated: every operation returns a fresh table value.
-/

namespace Censo

/-- A numeric cell: `none` stands for pandas `NaN`. -/
abbrev Cell := Option ℚ

/-- Column payload: numeric, boolean (flag columns) or opaque non-numeric. -/
inductive ColData where
  | num (vals : List Cell)
  | bools (vals : List Bool)
  | strs (vals : List String)
deriving DecidableEq

/-- `select_dtypes(include="number")` keeps exactly the numeric columns
(pandas excludes `bool` from `"number"`). -/
def ColData.isNum : ColData → Bool
  | .num _ => true
  | _ => false

/-- Number of cells in a column. -/
def ColData.len : ColData → Nat
  | .num vs => vs.length
  | .bools vs => vs.length
  | .strs vs => vs.length

/-- A DataFrame: ordered association list of column name to column data. -/
abbrev Table := List (String × ColData)

/-- `df[c]`: first column named `c`, if any. -/
def getCol : Table → String → Option ColData
  | [], _ => none
  | e :: es, c => if e.1 = c then some e.2 else getCol es c

/-- The column labels of a table, in order. -/
def namesOf (df : Table) : List String := df.map (fun e => e.1)

/-- `len(df)`: the row count (length of the first column; 0 if no columns). -/
def nRows : Table → Nat
  | [] => 0
  | e :: _ => e.2.len

/-- Assignment `df[c] = f(df[c])`: rewrite the data of every column
labelled `c`, leaving labels and order intact. -/
def mapCol (df : Table) (c : String) (f : ColData → ColData) : Table :=
  df.map (fun e => if e.1 = c then (e.1, f e.2) else e)

/-- Assignment `df[name] = d` for a possibly new label: overwrite in place
when the label exists, otherwise append the new column at the end. -/
def setOrAppend (df : Table) (c : String) (d : ColData) : Table :=
  if c ∈ namesOf df then mapCol df c (fun _ => d) else df ++ [(c, d)]

/-- `(df[c] == q).any()`: does a numeric column contain the value `q`?
On non-numeric columns the pandas comparison is all-`False`. -/
def hasVal (q : ℚ) : ColData → Bool
  | .num vs => vs.any (fun x => decide (x = some q))
  | _ => false

/-- `(df[c] == q).sum()`: number of cells equal to `q` (NaN never matches). -/
def countEq (q : ℚ) : ColData → Nat
  | .num vs => vs.countP (fun x => decide (x = some q))
  | _ => 0

/-- Labels of the numeric columns, in table order
(`df.select_dtypes(include="number").columns`). -/
def numericNames (df : Table) : List String :=
  (df.filter (fun e => e.2.isNum)).map (fun e => e.1)

/-- The two ways the Python functions raise: `ValueError` on a bad
imputation-method string, `KeyError` on a missing column label. -/
inductive TratErr where
  | badMethod (metodo : String)
  | missingColumn (c : String)
deriving DecidableEq

/-- The list comprehension `[c for c in cols_proc if p(df[c])]`: looks up
each label in order (failing on the first missing one) and keeps those
whose column satisfies `p`. -/
def selectWith (df : Table) (p : ColData → Bool) : List String → Except TratErr (List String)
  | [] => .ok []
  | c :: cs =>
    match getCol df c with
    | none => .error (.missingColumn c)
    | some d =>
      match selectWith df p cs with
      | .error e => .error e
      | .ok rest => .ok (if p d then c :: rest else rest)

/-- `Series.replace(q, new)` on a numeric column; other dtypes untouched. -/
def replaceVal (q : ℚ) (new : Cell) : ColData → ColData
  | .num vs => .num (vs.map (fun x => if x = some q then new else x))
  | d => d

/-- `tratar_no_aplica(df, cols, reemplazo)`: replace every `-6` by
`reemplazo` in the selected columns that actually contain `-6`. -/
def tratar_no_aplica (df : Table) (cols : Option (List String)) (reemplazo : ℚ) :
    Except TratErr Table :=
  match selectWith df (hasVal (-6)) (cols.getD (numericNames df)) with
  | .error e => .error e
  | .ok cols_con_6 =>
    .ok (cols_con_6.foldl (fun acc c => mapCol acc c (replaceVal (-6) (some reemplazo))) df)

/-- `METODOS_CONF = ("nan", "cero", "mediana", "media", "valor_bajo")`. -/
def METODOS_CONF : List String := ["nan", "cero", "mediana", "media", "valor_bajo"]

/-- `resultado.loc[~mascara & (resultado[c] >= 0), c]`: the values eligible
for the mean/median statistic — cells that are not `-8` and compare `≥ 0`
(`NaN` compares false, hence is excluded). -/
def validValues (vs : List Cell) : List ℚ :=
  vs.filterMap (fun x => x.bind (fun v => if ¬ x = some (-8) ∧ 0 ≤ v then some v else none))

/-- Sorted insertion, ascending. -/
def insertOrd (x : ℚ) : List ℚ → List ℚ
  | [] => [x]
  | y :: ys => if x ≤ y then x :: y :: ys else y :: insertOrd x ys

/-- Insertion sort, ascending. -/
def sortQ (l : List ℚ) : List ℚ := l.foldr insertOrd []

/-- `Series.median()` on a nonempty list: middle element of the sorted
list, or the average of the two middle elements when the length is even. -/
def medianQ (l : List ℚ) : ℚ :=
  let s := sortQ l
  let n := s.length
  if n % 2 = 1 then s.getD (n / 2) 0
  else (s.getD (n / 2 - 1) 0 + s.getD (n / 2) 0) / 2

/-- `Series.mean()` on a nonempty list. -/
def meanQ (l : List ℚ) : ℚ := l.sum / (l.length : ℚ)

/-- Nearest integer, ties to even — the rounding of Python's `round`. -/
def roundHalfEven (q : ℚ) : ℤ :=
  let f := Rat.floor q
  let r := q - (f : ℚ)
  if r < 1 / 2 then f
  else if 1 / 2 < r then f + 1
  else if f % 2 = 0 then f else f + 1

/-- `round(q, 1)`: round to one decimal, ties to even. -/
def round1 (q : ℚ) : ℚ := (roundHalfEven (q * 10) : ℚ) / 10

/-- Body of the `for c in cols_con_8` loop of `tratar_confidencial`:
treat one numeric column according to `metodo`.  `mascara` is the set of
cells equal to `-8`; only those cells are overwritten. -/
def tratarConfCol (metodo : String) (valor_bajo : ℚ) : ColData → ColData
  | .num vs =>
    if metodo = "nan" then
      .num (vs.map (fun x => if x = some (-8) then none else x))
    else if metodo = "cero" then
      .num (vs.map (fun x => if x = some (-8) then some 0 else x))
    else if metodo = "mediana" then
      let valores_validos := validValues vs
      let imputacion := if 0 < valores_validos.length then medianQ valores_validos else 0
      .num (vs.map (fun x => if x = some (-8) then some imputacion else x))
    else if metodo = "media" then
      let valores_validos := validValues vs
      let imputacion := if 0 < valores_validos.length then meanQ valores_validos else 0
      .num (vs.map (fun x => if x = some (-8) then some (round1 imputacion) else x))
    else if metodo = "valor_bajo" then
      .num (vs.map (fun x => if x = some (-8) then some valor_bajo else x))
    else .num vs
  | d => d

/-- `tratar_confidencial(df, cols, metodo, valor_bajo)`: validate the
method string first, then treat every selected column containing `-8`. -/
def tratar_confidencial (df : Table) (cols : Option (List String)) (metodo : String)
    (valor_bajo : ℚ) : Except TratErr Table :=
  if metodo ∈ METODOS_CONF then
    match selectWith df (hasVal (-8)) (cols.getD (numericNames df)) with
    | .error e => .error e
    | .ok cols_con_8 =>
      .ok (cols_con_8.foldl (fun acc c => mapCol acc c (tratarConfCol metodo valor_bajo)) df)
  else .error (.badMethod metodo)

/-- `tratar_censurados`: the `-6` pass followed by the `-8` pass. -/
def tratar_censurados (df : Table) (cols : Option (List String)) (metodo_conf : String)
    (valor_bajo : ℚ) (reemplazo_no_aplica : ℚ) : Except TratErr Table :=
  match tratar_no_aplica df cols reemplazo_no_aplica with
  | .error e => .error e
  | .ok resultado => tratar_confidencial resultado cols metodo_conf valor_bajo

/-- `df[c] == q` as a boolean column.  On non-numeric data the pandas
comparison yields all-`False`. -/
def flagEq (q : ℚ) : ColData → ColData
  | .num vs => .bools (vs.map (fun x => decide (x = some q)))
  | .bools vs => .bools (vs.map (fun _ => false))
  | .strs vs => .bools (vs.map (fun _ => false))

/-- Body of the `for c in cols_proc` loop of `marcar_censurados`: test the
column for each sentinel (both tests read the column once, up front), then
append/overwrite the `-6` flag and afterwards the `-8` flag.  The `-8`
flag is computed from a re-read of `df[c]`, which matters only when the
`-6` flag assignment collided with the label `c` itself. -/
def marcarStep (sufijo_6 sufijo_8 : String) (acc : Table) (c : String) :
    Except TratErr Table :=
  match getCol acc c with
  | none => .error (.missingColumn c)
  | some d =>
    let tiene_6 := hasVal (-6) d
    let tiene_8 := hasVal (-8) d
    let acc1 := if tiene_6 then setOrAppend acc (c ++ sufijo_6) (flagEq (-6) d) else acc
    let d1 := (getCol acc1 c).getD d
    let acc2 := if tiene_8 then setOrAppend acc1 (c ++ sufijo_8) (flagEq (-8) d1) else acc1
    .ok acc2

/-- `marcar_censurados(df, cols, sufijo_6, sufijo_8)`: for each selected
column, append boolean flag columns recording where each sentinel occurs. -/
def marcar_censurados (df : Table) (cols : Option (List String))
    (sufijo_6 sufijo_8 : String) : Except TratErr Table :=
  (cols.getD (numericNames df)).foldlM (marcarStep sufijo_6 sufijo_8) df

/-- One row of the diagnostic report: counts and percentages of `-6`, of
`-8`, and of both together. -/
structure ResumenRow where
  n_menos_6 : Nat
  pct_menos_6 : Option ℚ
  n_menos_8 : Nat
  pct_menos_8 : Option ℚ
  n_especiales : Nat
  pct_especiales : Option ℚ
deriving DecidableEq

/-- `(cnt / n * 100).round(1)`.  Dividing by a zero row count gives a
non-finite float (`NaN`), modelled as `none`. -/
def pctOf (cnt n : Nat) : Option ℚ :=
  if n = 0 then none else some (round1 ((cnt : ℚ) / (n : ℚ) * 100))

/-- `diagnostico_censurados(df)`: per numeric column, the sentinel counts
and percentages, keeping only rows with `n_especiales > 0`. -/
def diagnostico_censurados (df : Table) : List (String × ResumenRow) :=
  let n := nRows df
  let resumen := (df.filter (fun e => e.2.isNum)).map (fun e =>
    let n6 := countEq (-6) e.2
    let n8 := countEq (-8) e.2
    (e.1, (⟨n6, pctOf n6 n, n8, pctOf n8 n, n6 + n8, pctOf (n6 + n8) n⟩ : ResumenRow)))
  resumen.filter (fun r => 0 < r.2.n_especiales)

deriving instance DecidableEq for Except

/-! ### Basic lemmas about the table primitives -/

/-- Lookup through a keyed map of the data. -/
theorem getCol_map_keyed (df : Table) (g : String → ColData → ColData) (x : String) :
    getCol (df.map (fun e => (e.1, g e.1 e.2))) x = (getCol df x).map (g x) := by
  induction df with
  | nil => simp [getCol]
  | cons e es ih =>
    by_cases hex : e.1 = x
    · subst hex; simp [getCol]
    · simp [getCol, hex, ih]

/-- A keyed map of the data keeps the labels. -/
theorem namesOf_map_keyed (df : Table) (g : String → ColData → ColData) :
    namesOf (df.map (fun e => (e.1, g e.1 e.2))) = namesOf df := by
  simp [namesOf, List.map_map, Function.comp]

/-- `mapCol` written as a keyed map of the data. -/
theorem mapCol_eq_keyed (df : Table) (c : String) (f : ColData → ColData) :
    mapCol df c f = df.map (fun e => (e.1, if e.1 = c then f e.2 else e.2)) := by
  refine List.map_congr_left (fun e _ => ?_)
  by_cases h : e.1 = c <;> simp [h]

/-- Looking a label up after `mapCol`. -/
theorem getCol_mapCol (df : Table) (c x : String) (f : ColData → ColData) :
    getCol (mapCol df c f) x = if x = c then (getCol df c).map f else getCol df x := by
  have hk : getCol (mapCol df c f) x
      = (getCol df x).map (fun d => if x = c then f d else d) := by
    rw [mapCol_eq_keyed]
    exact getCol_map_keyed df (fun n d => if n = c then f d else d) x
  rw [hk]
  by_cases h : x = c
  · subst h; simp
  · cases hg : getCol df x <;> simp [h]

/-- A label is present exactly when lookup succeeds. -/
theorem mem_namesOf_iff_isSome (df : Table) (x : String) :
    x ∈ namesOf df ↔ (getCol df x).isSome := by
  induction df with
  | nil => simp [namesOf, getCol]
  | cons e es ih =>
    by_cases hex : e.1 = x
    · simp_all [namesOf, getCol]
    · have hex' : ¬ x = e.1 := fun hh => hex hh.symm
      simp_all [namesOf, getCol]

/-- Lookup in an appended table hits the left part first. -/
theorem getCol_append_left (df l : Table) (x : String) (d : ColData)
    (h : getCol df x = some d) : getCol (df ++ l) x = some d := by
  induction df with
  | nil => simp [getCol] at h
  | cons e es ih =>
    by_cases hex : e.1 = x <;> simp_all [getCol]

/-- The left-fold of per-column rewrites, written as one keyed map: each
entry is rewritten once per occurrence of its label in the worklist. -/
theorem foldl_mapCol (f : ColData → ColData) (l : List String) (df : Table) :
    l.foldl (fun acc c => mapCol acc c f) df
      = df.map (fun e => (e.1, f^[l.count e.1] e.2)) := by
  induction l generalizing df with
  | nil =>
    simp only [List.foldl_nil, List.count_nil, Function.iterate_zero, id]
    simp
  | cons a l ih =>
    rw [List.foldl_cons, ih, mapCol_eq_keyed]
    simp only [List.map_map]
    refine List.map_congr_left (fun e _ => ?_)
    by_cases h : e.1 = a
    · simp only [Function.comp, h, if_pos rfl, List.count_cons, beq_self_eq_true, if_true]
      rw [Function.iterate_add_apply, Function.iterate_one]
    · have hb : ¬ ((a == e.1) = true) := by
        simp only [beq_iff_eq]
        exact fun hh => h hh.symm
      simp only [Function.comp, if_neg h, List.count_cons, if_neg hb, Nat.add_zero]

/-! ### Lemmas about the fallible column selection -/

/-- Test `p` on the column labelled `c`; `false` when the label is absent. -/
def pTest (df : Table) (p : ColData → Bool) (c : String) : Bool :=
  match getCol df c with
  | some d => p d
  | none => false

/-- When every label resolves, the selection is a plain filter. -/
theorem selectWith_ok_of_all (df : Table) (p : ColData → Bool) (cs : List String)
    (h : ∀ c ∈ cs, (getCol df c).isSome) :
    selectWith df p cs = .ok (cs.filter (pTest df p)) := by
  induction cs with
  | nil => simp [selectWith]
  | cons a cs ih =>
    have ha := h a (List.mem_cons_self a cs)
    cases hga : getCol df a with
    | none => rw [hga] at ha; simp at ha
    | some d =>
      have hrest := ih (fun c hc => h c (List.mem_cons_of_mem a hc))
      by_cases hp : p d <;>
        simp [selectWith, hga, hrest, List.filter_cons, pTest, hp]

/-- A successful selection means every label resolved, and the output is
the filter of the worklist. -/
theorem selectWith_ok_elim (df : Table) (p : ColData → Bool) (cs : List String)
    (l : List String) (h : selectWith df p cs = .ok l) :
    (∀ c ∈ cs, (getCol df c).isSome) ∧ l = cs.filter (pTest df p) := by
  induction cs generalizing l with
  | nil =>
    simp [selectWith] at h
    simp [h]
  | cons a cs ih =>
    cases hga : getCol df a with
    | none => simp [selectWith, hga] at h
    | some d =>
      cases hrest : selectWith df p cs with
      | error e => simp [selectWith, hga, hrest] at h
      | ok rest =>
        obtain ⟨hall, hfilt⟩ := ih rest hrest
        simp only [selectWith, hga, hrest] at h
        have hl : l = if p d then a :: rest else rest := by
          cases h; rfl
        constructor
        · intro c hc
          rcases List.mem_cons.mp hc with hc | hc
          · subst hc; simp [hga]
          · exact hall c hc
        · by_cases hp : p d <;>
            simp [hl, hp, List.filter_cons, pTest, hga, hfilt]

/-- Some label in the worklist is absent: the selection fails with a
column-lookup error naming an absent label of the worklist. -/
theorem selectWith_err (df : Table) (p : ColData → Bool) (cs : List String)
    (h : ∃ c ∈ cs, getCol df c = none) :
    ∃ c ∈ cs, getCol df c = none ∧ selectWith df p cs = .error (.missingColumn c) := by
  induction cs with
  | nil => simp at h
  | cons a cs ih =>
    cases hga : getCol df a with
    | none => exact ⟨a, List.mem_cons_self a cs, hga, by simp [selectWith, hga]⟩
    | some d =>
      obtain ⟨c, hc, hcnone⟩ := h
      rcases List.mem_cons.mp hc with hc | hc
      · subst hc; rw [hga] at hcnone; cases hcnone
      · obtain ⟨c', hc', hc'none, herr⟩ := ih ⟨c, hc, hcnone⟩
        exact ⟨c', List.mem_cons_of_mem a hc', hc'none, by simp [selectWith, hga, herr]⟩

/-! ### The two resolvers as keyed maps -/

/-- How often the worklist of a resolver call rewrites the column `c`:
occurrences of `c` among the selected labels passing the sentinel test. -/
def kCount (df : Table) (cols : Option (List String)) (p : ColData → Bool) (c : String) : Nat :=
  ((cols.getD (numericNames df)).filter (pTest df p)).count c

/-- A successful `tratar_no_aplica`: all selected labels resolve, and the
result rewrites each column once per selected `-6`-containing occurrence. -/
theorem tratar_no_aplica_ok_elim (df : Table) (cols : Option (List String)) (r : ℚ)
    (t : Table) (h : tratar_no_aplica df cols r = .ok t) :
    (∀ c ∈ cols.getD (numericNames df), (getCol df c).isSome) ∧
    t = df.map (fun e =>
      (e.1, (replaceVal (-6) (some r))^[kCount df cols (hasVal (-6)) e.1] e.2)) := by
  unfold tratar_no_aplica at h
  cases hsel : selectWith df (hasVal (-6)) (cols.getD (numericNames df)) with
  | error e => rw [hsel] at h; cases h
  | ok l =>
    rw [hsel] at h
    obtain ⟨hall, hfilt⟩ := selectWith_ok_elim _ _ _ _ hsel
    refine ⟨hall, ?_⟩
    cases h
    rw [hfilt, foldl_mapCol]
    rfl

/-- Converse direction: when all selected labels resolve the call succeeds,
with the same keyed-map result. -/
theorem tratar_no_aplica_ok_intro (df : Table) (cols : Option (List String)) (r : ℚ)
    (h : ∀ c ∈ cols.getD (numericNames df), (getCol df c).isSome) :
    tratar_no_aplica df cols r = .ok (df.map (fun e =>
      (e.1, (replaceVal (-6) (some r))^[kCount df cols (hasVal (-6)) e.1] e.2))) := by
  unfold tratar_no_aplica
  rw [selectWith_ok_of_all df _ _ h]
  dsimp only
  rw [foldl_mapCol]
  rfl

/-- A successful `tratar_confidencial`: the method is one of the five, all
selected labels resolve, and the result rewrites each column once per
selected `-8`-containing occurrence. -/
theorem tratar_confidencial_ok_elim (df : Table) (cols : Option (List String))
    (metodo : String) (vb : ℚ) (t : Table)
    (h : tratar_confidencial df cols metodo vb = .ok t) :
    metodo ∈ METODOS_CONF ∧
    (∀ c ∈ cols.getD (numericNames df), (getCol df c).isSome) ∧
    t = df.map (fun e =>
      (e.1, (tratarConfCol metodo vb)^[kCount df cols (hasVal (-8)) e.1] e.2)) := by
  unfold tratar_confidencial at h
  by_cases hm : metodo ∈ METODOS_CONF
  · rw [if_pos hm] at h
    cases hsel : selectWith df (hasVal (-8)) (cols.getD (numericNames df)) with
    | error e => rw [hsel] at h; cases h
    | ok l =>
      rw [hsel] at h
      obtain ⟨hall, hfilt⟩ := selectWith_ok_elim _ _ _ _ hsel
      refine ⟨hm, hall, ?_⟩
      cases h
      rw [hfilt, foldl_mapCol]
      rfl
  · rw [if_neg hm] at h; cases h

/-- Converse direction for `tratar_confidencial`. -/
theorem tratar_confidencial_ok_intro (df : Table) (cols : Option (List String))
    (metodo : String) (vb : ℚ) (hm : metodo ∈ METODOS_CONF)
    (h : ∀ c ∈ cols.getD (numericNames df), (getCol df c).isSome) :
    tratar_confidencial df cols metodo vb = .ok (df.map (fun e =>
      (e.1, (tratarConfCol metodo vb)^[kCount df cols (hasVal (-8)) e.1] e.2))) := by
  unfold tratar_confidencial
  rw [if_pos hm, selectWith_ok_of_all df _ _ h]
  dsimp only
  rw [foldl_mapCol]
  rfl

/-! ### Counting how often a column is rewritten -/

/-- A column failing the sentinel test is never rewritten. -/
theorem kCount_eq_zero (df : Table) (cols : Option (List String)) (p : ColData → Bool)
    (x : String) (hp : pTest df p x = false) : kCount df cols p x = 0 := by
  refine List.count_eq_zero.mpr (fun hmem => ?_)
  have := (List.mem_filter.mp hmem).2
  rw [hp] at this
  cases this

/-- With an explicit selection, the rewrite count of a passing column is
its occurrence count in the selection. -/
theorem kCount_some (df : Table) (l : List String) (p : ColData → Bool) (x : String) :
    kCount df (some l) p x = if pTest df p x then l.count x else 0 := by
  by_cases hp : pTest df p x
  · rw [if_pos hp]
    exact List.count_filter hp
  · rw [if_neg hp]
    exact kCount_eq_zero df (some l) p x (by simpa using hp)

/-- Every numeric label is a label. -/
theorem mem_namesOf_of_mem_numericNames (df : Table) (x : String)
    (h : x ∈ numericNames df) : x ∈ namesOf df := by
  obtain ⟨e, he, hex⟩ := List.mem_map.mp h
  exact List.mem_map.mpr ⟨e, (List.mem_filter.mp he).1, hex⟩

/-- Under duplicate-free labels, each label occurs in the numeric-label
list exactly when its (unique) column is numeric. -/
theorem count_numericNames (df : Table) (x : String) (h : (namesOf df).Nodup) :
    (numericNames df).count x = if pTest df ColData.isNum x then 1 else 0 := by
  induction df with
  | nil => simp [numericNames, pTest, getCol]
  | cons e es ih =>
    have hnd : (namesOf es).Nodup := (List.nodup_cons.mp h).2
    have hnm : e.1 ∉ namesOf es := (List.nodup_cons.mp h).1
    by_cases hex : e.1 = x
    · subst hex
      have hz : (numericNames es).count e.1 = 0 :=
        List.count_eq_zero.mpr (fun hc => hnm (mem_namesOf_of_mem_numericNames es e.1 hc))
      by_cases hn : e.2.isNum <;>
        · simp [numericNames, List.filter_cons, hn, pTest, getCol, List.count_cons]
          exact hz
    · have hx' : ¬ (e.1 == x) = true := by
        simp only [beq_iff_eq]; exact hex
      have := ih hnd
      by_cases hn : e.2.isNum <;>
        simp_all [numericNames, List.filter_cons, hn, pTest, getCol, hex,
          List.count_cons, hx']

/-! ### Shape preservation through iterated column rewrites -/

/-- An `isNum`-preserving rewrite stays `isNum`-preserving under iteration. -/
theorem isNum_iterate (f : ColData → ColData) (hf : ∀ d, (f d).isNum = d.isNum)
    (k : Nat) : ∀ d : ColData, (f^[k] d).isNum = d.isNum := by
  induction k with
  | zero => intro d; simp
  | succ k ih =>
    intro d
    rw [Function.iterate_succ_apply, ih (f d), hf d]

/-- A length-preserving rewrite stays length-preserving under iteration. -/
theorem len_iterate (f : ColData → ColData) (hf : ∀ d, (f d).len = d.len)
    (k : Nat) : ∀ d : ColData, (f^[k] d).len = d.len := by
  induction k with
  | zero => intro d; simp
  | succ k ih =>
    intro d
    rw [Function.iterate_succ_apply, ih (f d), hf d]

/-- `replace` keeps the numeric dtype. -/
theorem replaceVal_isNum (q : ℚ) (new : Cell) (d : ColData) :
    (replaceVal q new d).isNum = d.isNum := by
  cases d <;> rfl

/-- `replace` keeps the column length. -/
theorem replaceVal_len (q : ℚ) (new : Cell) (d : ColData) :
    (replaceVal q new d).len = d.len := by
  cases d <;> simp [replaceVal, ColData.len]

/-- `replace` leaves non-numeric columns untouched. -/
theorem replaceVal_nonNum (q : ℚ) (new : Cell) (d : ColData) (h : d.isNum = false) :
    replaceVal q new d = d := by
  cases d with
  | num vs => simp [ColData.isNum] at h
  | bools vs => rfl
  | strs vs => rfl

/-- A column without the value `q` is untouched by `replace`. -/
theorem replaceVal_of_not_hasVal (q : ℚ) (new : Cell) (d : ColData)
    (h : hasVal q d = false) : replaceVal q new d = d := by
  cases d with
  | num vs =>
    simp only [hasVal, List.any_eq_false, decide_eq_true_eq] at h
    simp only [replaceVal, ColData.num.injEq]
    have hmm : vs.map (fun x => if x = some q then new else x) = vs.map (fun x => x) :=
      List.map_congr_left (fun x hx => if_neg (h x hx))
    rw [hmm]
    simp
  | bools vs => rfl
  | strs vs => rfl

/-- The confidential per-column treatment keeps the numeric dtype. -/
theorem tratarConfCol_isNum (m : String) (vb : ℚ) (d : ColData) :
    (tratarConfCol m vb d).isNum = d.isNum := by
  cases d with
  | num vs =>
    unfold tratarConfCol
    split_ifs <;> rfl
  | bools vs => rfl
  | strs vs => rfl

/-- The confidential per-column treatment keeps the column length. -/
theorem tratarConfCol_len (m : String) (vb : ℚ) (d : ColData) :
    (tratarConfCol m vb d).len = d.len := by
  cases d with
  | num vs =>
    unfold tratarConfCol
    split_ifs <;> simp [ColData.len]
  | bools vs => rfl
  | strs vs => rfl

/-- The confidential per-column treatment leaves non-numeric columns
untouched. -/
theorem tratarConfCol_nonNum (m : String) (vb : ℚ) (d : ColData)
    (h : d.isNum = false) : tratarConfCol m vb d = d := by
  cases d with
  | num vs => simp [ColData.isNum] at h
  | bools vs => rfl
  | strs vs => rfl

/-- A column without `-8` is untouched by the confidential treatment. -/
theorem tratarConfCol_of_not_hasVal (m : String) (vb : ℚ) (d : ColData)
    (h : hasVal (-8) d = false) : tratarConfCol m vb d = d := by
  cases d with
  | num vs =>
    simp only [hasVal, List.any_eq_false, decide_eq_true_eq] at h
    have hmap : ∀ (y : Cell), vs.map (fun x => if x = some (-8) then y else x) = vs :=
      fun y => (List.map_congr_left (fun x hx => if_neg (h x hx))).trans (by simp)
    unfold tratarConfCol
    split_ifs <;> simp [hmap]
  | bools vs => rfl
  | strs vs => rfl

/-- A keyed data map with an `isNum`-preserving rewrite keeps the list of
numeric labels. -/
theorem numericNames_map_keyed (df : Table) (g : String → ColData → ColData)
    (hg : ∀ n d, (g n d).isNum = d.isNum) :
    numericNames (df.map (fun e => (e.1, g e.1 e.2))) = numericNames df := by
  induction df with
  | nil => rfl
  | cons e es ih =>
    simp only [List.map_cons, numericNames, List.filter_cons] at ih ⊢
    rw [hg e.1 e.2]
    by_cases hn : e.2.isNum <;> simp_all [hn]

/-! ### Per-column views of the resolvers -/

/-- Column view of a successful `tratar_no_aplica`. -/
theorem getCol_tratar_no_aplica (df : Table) (cols : Option (List String)) (r : ℚ)
    (t : Table) (x : String) (h : tratar_no_aplica df cols r = .ok t) :
    getCol t x
      = (getCol df x).map ((replaceVal (-6) (some r))^[kCount df cols (hasVal (-6)) x]) := by
  obtain ⟨-, ht⟩ := tratar_no_aplica_ok_elim df cols r t h
  rw [ht]
  exact getCol_map_keyed df
    (fun n d => (replaceVal (-6) (some r))^[kCount df cols (hasVal (-6)) n] d) x

/-- `tratar_no_aplica` keeps the labels. -/
theorem namesOf_tratar_no_aplica (df : Table) (cols : Option (List String)) (r : ℚ)
    (t : Table) (h : tratar_no_aplica df cols r = .ok t) : namesOf t = namesOf df := by
  obtain ⟨-, ht⟩ := tratar_no_aplica_ok_elim df cols r t h
  rw [ht]
  exact namesOf_map_keyed df
    (fun n d => (replaceVal (-6) (some r))^[kCount df cols (hasVal (-6)) n] d)

/-- `tratar_no_aplica` keeps the list of numeric labels. -/
theorem numericNames_tratar_no_aplica (df : Table) (cols : Option (List String)) (r : ℚ)
    (t : Table) (h : tratar_no_aplica df cols r = .ok t) :
    numericNames t = numericNames df := by
  obtain ⟨-, ht⟩ := tratar_no_aplica_ok_elim df cols r t h
  rw [ht]
  exact numericNames_map_keyed df
    (fun n d => (replaceVal (-6) (some r))^[kCount df cols (hasVal (-6)) n] d)
    (fun n d => isNum_iterate _ (replaceVal_isNum (-6) (some r)) _ d)

/-- Column view of a successful `tratar_confidencial`. -/
theorem getCol_tratar_confidencial (df : Table) (cols : Option (List String))
    (metodo : String) (vb : ℚ) (t : Table) (x : String)
    (h : tratar_confidencial df cols metodo vb = .ok t) :
    getCol t x
      = (getCol df x).map ((tratarConfCol metodo vb)^[kCount df cols (hasVal (-8)) x]) := by
  obtain ⟨-, -, ht⟩ := tratar_confidencial_ok_elim df cols metodo vb t h
  rw [ht]
  exact getCol_map_keyed df
    (fun n d => (tratarConfCol metodo vb)^[kCount df cols (hasVal (-8)) n] d) x

/-- `tratar_confidencial` keeps the labels. -/
theorem namesOf_tratar_confidencial (df : Table) (cols : Option (List String))
    (metodo : String) (vb : ℚ) (t : Table)
    (h : tratar_confidencial df cols metodo vb = .ok t) : namesOf t = namesOf df := by
  obtain ⟨-, -, ht⟩ := tratar_confidencial_ok_elim df cols metodo vb t h
  rw [ht]
  exact namesOf_map_keyed df
    (fun n d => (tratarConfCol metodo vb)^[kCount df cols (hasVal (-8)) n] d)

/-- `tratar_confidencial` keeps the list of numeric labels. -/
theorem numericNames_tratar_confidencial (df : Table) (cols : Option (List String))
    (metodo : String) (vb : ℚ) (t : Table)
    (h : tratar_confidencial df cols metodo vb = .ok t) :
    numericNames t = numericNames df := by
  obtain ⟨-, -, ht⟩ := tratar_confidencial_ok_elim df cols metodo vb t h
  rw [ht]
  exact numericNames_map_keyed df
    (fun n d => (tratarConfCol metodo vb)^[kCount df cols (hasVal (-8)) n] d)
    (fun n d => isNum_iterate _ (tratarConfCol_isNum metodo vb) _ d)

/-- A successful combined treatment factors through its two passes. -/
theorem tratar_censurados_ok_elim (df : Table) (cols : Option (List String))
    (metodo_conf : String) (vb r : ℚ) (t : Table)
    (h : tratar_censurados df cols metodo_conf vb r = .ok t) :
    ∃ m, tratar_no_aplica df cols r = .ok m ∧ tratar_confidencial m cols metodo_conf vb = .ok t := by
  unfold tratar_censurados at h
  cases h1 : tratar_no_aplica df cols r with
  | error e => rw [h1] at h; cases h
  | ok m => rw [h1] at h; exact ⟨m, rfl, h⟩

/-- `pTest` through a successful lookup. -/
theorem pTest_of_getCol (df : Table) (p : ColData → Bool) (c : String) (d : ColData)
    (h : getCol df c = some d) : pTest df p c = p d := by
  simp [pTest, h]

/-- Frame facts of a keyed data map whose rewrite preserves lengths and
fixes non-numeric columns: labels, row count and non-numeric columns are
unchanged, and every column keeps its length. -/
theorem frame_of_keyed_map (df : Table) (g : String → ColData → ColData)
    (hlen : ∀ n d, (g n d).len = d.len) (hfix : ∀ n d, d.isNum = false → g n d = d) :
    namesOf (df.map (fun e => (e.1, g e.1 e.2))) = namesOf df ∧
    nRows (df.map (fun e => (e.1, g e.1 e.2))) = nRows df ∧
    (∀ c d, getCol df c = some d → d.isNum = false →
      getCol (df.map (fun e => (e.1, g e.1 e.2))) c = some d) ∧
    (∀ c d d', getCol df c = some d → getCol (df.map (fun e => (e.1, g e.1 e.2))) c = some d' →
      d'.len = d.len) := by
  refine ⟨namesOf_map_keyed df g, ?_, ?_, ?_⟩
  · cases df with
    | nil => rfl
    | cons e es => exact hlen e.1 e.2
  · intro c d hc hnn
    rw [getCol_map_keyed, hc]
    simp [hfix c d hnn]
  · intro c d d' hc hc'
    rw [getCol_map_keyed, hc] at hc'
    have hgd : g c d = d' := by simpa using hc'
    rw [← hgd]
    exact hlen c d

/-- Replacing `q` by `q` changes nothing. -/
theorem replaceVal_self (q : ℚ) (d : ColData) : replaceVal q (some q) d = d := by
  cases d with
  | num vs =>
    simp only [replaceVal, ColData.num.injEq]
    have hmm : vs.map (fun x => if x = some q then some q else x) = vs.map (fun x => x) :=
      List.map_congr_left (fun x _ => by by_cases h : x = some q <;> simp [h])
    rw [hmm]
    simp
  | bools vs => rfl
  | strs vs => rfl

/-- After replacing `q` by some other value, `q` is gone. -/
theorem hasVal_replaceVal (q r : ℚ) (d : ColData) (hr : r ≠ q) :
    hasVal q (replaceVal q (some r) d) = false := by
  cases d with
  | num vs =>
    simp only [replaceVal, hasVal, List.any_map, List.any_eq_false, Function.comp,
      decide_eq_true_eq]
    intro x _
    by_cases hxq : x = some q
    · simp [hxq, hr]
    · simp [hxq]
  | bools vs => rfl
  | strs vs => rfl

/-- With the default selection and duplicate-free labels, the rewrite
count of a column is determined by that column's own data. -/
theorem kCount_none (df : Table) (x : String) (p : ColData → Bool)
    (h : (namesOf df).Nodup) :
    kCount df none p x
      = if pTest df p x then (if pTest df ColData.isNum x then 1 else 0) else 0 := by
  by_cases hp : pTest df p x
  · rw [if_pos hp]
    unfold kCount
    simp only [Option.getD_none]
    rw [List.count_filter (by simpa using hp), count_numericNames df x h]
  · rw [if_neg hp]
    exact kCount_eq_zero df none p x (by simpa using hp)

/-- `pTest` only looks at the named column. -/
theorem pTest_congr (df1 df2 : Table) (p : ColData → Bool) (x : String)
    (hagree : getCol df1 x = getCol df2 x) : pTest df1 p x = pTest df2 p x := by
  unfold pTest
  rw [hagree]

/-- The rewrite count of a column depends only on that column's data and
the call parameters (labels assumed duplicate-free, as in a DataFrame). -/
theorem kCount_congr (df1 df2 : Table) (cols : Option (List String)) (p : ColData → Bool)
    (x : String) (h1 : (namesOf df1).Nodup) (h2 : (namesOf df2).Nodup)
    (hagree : getCol df1 x = getCol df2 x) :
    kCount df1 cols p x = kCount df2 cols p x := by
  cases cols with
  | some l => rw [kCount_some, kCount_some, pTest_congr df1 df2 p x hagree]
  | none =>
    rw [kCount_none df1 x p h1, kCount_none df2 x p h2, pTest_congr df1 df2 p x hagree,
      pTest_congr df1 df2 ColData.isNum x hagree]

/-- Rounding zero gives zero. -/
theorem round1_zero : round1 0 = 0 := by
  have h : Rat.floor 0 = 0 := rfl
  norm_num [round1, roundHalfEven, h]

/-- The eligibility filter of the statistic (`not -8` and `≥ 0`, read off
the code) keeps exactly the values that are neither sentinel nor
negative, as the spec words it. -/
theorem validValues_eq_spec (vs : List Cell) :
    validValues vs = vs.filterMap (fun x => x.bind (fun v =>
      if v ≠ -6 ∧ v ≠ -8 ∧ ¬ v < 0 then some v else none)) := by
  unfold validValues
  refine List.filterMap_congr (fun x _ => ?_)
  cases x with
  | none => rfl
  | some v =>
    show (if ¬ (some v : Cell) = some (-8) ∧ 0 ≤ v then some v else none)
      = (if v ≠ -6 ∧ v ≠ -8 ∧ ¬ v < 0 then some v else none)
    by_cases h8 : v = -8
    · rw [if_neg (by simp [h8]), if_neg (by simp [h8])]
    · by_cases hv : 0 ≤ v
      · rw [if_pos ⟨by simp [h8], hv⟩,
          if_pos ⟨fun h6 => by rw [h6] at hv; norm_num at hv, h8, not_lt.mpr hv⟩]
      · rw [if_neg (fun hand => hv hand.2), if_neg (fun hand => hv (not_lt.mp hand.2.2))]

/-- The `mediana` column treatment: replace each `-8` cell by the median
of the eligible values, or by 0 when none are eligible. -/
theorem tratarConfCol_mediana (vb : ℚ) (vs : List Cell) :
    tratarConfCol "mediana" vb (.num vs)
      = .num (vs.map (fun x => if x = some (-8) then
          some (if validValues vs = [] then 0 else medianQ (validValues vs)) else x)) := by
  have harg : (if 0 < (validValues vs).length then medianQ (validValues vs) else 0)
      = (if validValues vs = [] then 0 else medianQ (validValues vs)) := by
    by_cases he : validValues vs = []
    · simp [he]
    · simp [he, List.length_pos.mpr he]
  unfold tratarConfCol
  dsimp only
  rw [if_neg (show ¬ ("mediana" = "nan") from by decide),
    if_neg (show ¬ ("mediana" = "cero") from by decide), if_pos rfl, harg]

/-- The `media` column treatment: replace each `-8` cell by the mean of
the eligible values rounded to one decimal, or by 0 when none are
eligible. -/
theorem tratarConfCol_media (vb : ℚ) (vs : List Cell) :
    tratarConfCol "media" vb (.num vs)
      = .num (vs.map (fun x => if x = some (-8) then
          some (if validValues vs = [] then 0 else round1 (meanQ (validValues vs))) else x)) := by
  have harg : round1 (if 0 < (validValues vs).length then meanQ (validValues vs) else 0)
      = (if validValues vs = [] then 0 else round1 (meanQ (validValues vs))) := by
    by_cases he : validValues vs = []
    · simp [he, round1_zero]
    · simp [he, List.length_pos.mpr he]
  unfold tratarConfCol
  dsimp only
  rw [if_neg (show ¬ ("media" = "nan") from by decide),
    if_neg (show ¬ ("media" = "cero") from by decide),
    if_neg (show ¬ ("media" = "mediana") from by decide), if_pos rfl, harg]

/-- `mapCol` keeps the labels. -/
theorem namesOf_mapCol (df : Table) (c : String) (f : ColData → ColData) :
    namesOf (mapCol df c f) = namesOf df := by
  rw [mapCol_eq_keyed]
  exact namesOf_map_keyed df (fun n d => if n = c then f d else d)

/-- The labels after `setOrAppend`: the old ones plus possibly the new one. -/
theorem mem_namesOf_setOrAppend (df : Table) (n : String) (d : ColData) (x : String) :
    x ∈ namesOf (setOrAppend df n d) ↔ x ∈ namesOf df ∨ x = n := by
  unfold setOrAppend
  by_cases h : n ∈ namesOf df
  · rw [if_pos h, namesOf_mapCol]
    constructor
    · exact Or.inl
    · rintro (hx | hx)
      · exact hx
      · rw [hx]; exact h
  · rw [if_neg h]
    simp [namesOf]

/-- Appending a fresh label leaves every other lookup unchanged. -/
theorem setOrAppend_fresh (df : Table) (n : String) (d : ColData) (h : n ∉ namesOf df) :
    setOrAppend df n d = df ++ [(n, d)] := by
  unfold setOrAppend
  rw [if_neg h]

/-- String concatenation is left-cancellative. -/
theorem string_append_left_cancel (c s t : String) (h : c ++ s = c ++ t) : s = t := by
  have hd := congrArg (fun x => x.data) h
  simp at hd
  exact String.ext hd

/-- The flag-marker loop body always succeeds on a present column, and
its result extends the labels only by the flag names of that column. -/
theorem marcarStep_ok (s6 s8 : String) (acc : Table) (a : String) (d : ColData)
    (hga : getCol acc a = some d) :
    ∃ acc', marcarStep s6 s8 acc a = .ok acc' ∧
      (∀ x, x ∈ namesOf acc' → x ∈ namesOf acc ∨ x = a ++ s6 ∨ x = a ++ s8) ∧
      (∀ x, x ∈ namesOf acc → x ∈ namesOf acc') := by
  unfold marcarStep
  rw [hga]
  dsimp only
  refine ⟨_, rfl, ?_, ?_⟩
  · intro x hx
    by_cases t6 : hasVal (-6) d <;> by_cases t8 : hasVal (-8) d <;>
      simp only [t6, t8, if_true, if_false, Bool.false_eq_true] at hx ⊢ <;>
      [skip; skip; skip; exact Or.inl hx]
    · rcases (mem_namesOf_setOrAppend _ _ _ x).mp hx with hx' | hx'
      · rcases (mem_namesOf_setOrAppend _ _ _ x).mp hx' with hx'' | hx''
        · exact Or.inl hx''
        · exact Or.inr (Or.inl hx'')
      · exact Or.inr (Or.inr hx')
    · rcases (mem_namesOf_setOrAppend _ _ _ x).mp hx with hx' | hx'
      · exact Or.inl hx'
      · exact Or.inr (Or.inl hx')
    · rcases (mem_namesOf_setOrAppend _ _ _ x).mp hx with hx' | hx'
      · exact Or.inl hx'
      · exact Or.inr (Or.inr hx')
  · intro x hx
    by_cases t6 : hasVal (-6) d <;> by_cases t8 : hasVal (-8) d <;>
      simp only [t6, t8, if_true, if_false, Bool.false_eq_true] <;>
      [skip; skip; skip; exact hx]
    · exact (mem_namesOf_setOrAppend _ _ _ x).mpr
        (Or.inl ((mem_namesOf_setOrAppend _ _ _ x).mpr (Or.inl hx)))
    · exact (mem_namesOf_setOrAppend _ _ _ x).mpr (Or.inl hx)
    · exact (mem_namesOf_setOrAppend _ _ _ x).mpr (Or.inl hx)

/-- If the selection contains a label that is absent from the input and
that cannot be mistaken for a flag name derived from a selected label,
the flag-marker scan fails with a column-lookup error. -/
theorem marcar_foldlM_err (s6 s8 : String) (df : Table) (L : List String) :
    ∀ (l : List String) (acc : Table),
    (∀ a ∈ l, a ∈ L) →
    (∀ x, x ∈ namesOf acc → x ∈ namesOf df ∨ ∃ c' ∈ L, x = c' ++ s6 ∨ x = c' ++ s8) →
    (∀ x, x ∈ namesOf df → x ∈ namesOf acc) →
    (∃ c ∈ l, getCol df c = none ∧ ∀ c' ∈ L, c ≠ c' ++ s6 ∧ c ≠ c' ++ s8) →
    ∃ c ∈ l, getCol df c = none ∧
      l.foldlM (marcarStep s6 s8) acc = .error (.missingColumn c) := by
  intro l
  induction l with
  | nil => intro acc _ _ _ hex; simp at hex
  | cons a l ih =>
    intro acc hsub hinv1 hinv2 hex
    cases hga : getCol acc a with
    | none =>
      have hadf : getCol df a = none := by
        by_contra hne
        have : (getCol df a).isSome := by
          cases hh : getCol df a
          · exact absurd hh hne
          · simp
        have := hinv2 a ((mem_namesOf_iff_isSome df a).mpr this)
        rw [mem_namesOf_iff_isSome, hga] at this
        cases this
      refine ⟨a, List.mem_cons_self a l, hadf, ?_⟩
      rw [List.foldlM_cons]
      have hstep : marcarStep s6 s8 acc a = .error (.missingColumn a) := by
        unfold marcarStep
        rw [hga]
      rw [hstep]
      rfl
    | some d =>
      obtain ⟨acc', hstep, hup, hdown⟩ := marcarStep_ok s6 s8 acc a d hga
      obtain ⟨c, hcl, hcnone, hcfree⟩ := hex
      have hcl' : c ∈ l := by
        rcases List.mem_cons.mp hcl with hca | hcl'
        · exfalso
          subst hca
          have hmem : c ∈ namesOf acc := by
            rw [mem_namesOf_iff_isSome, hga]; rfl
          rcases hinv1 c hmem with hin | ⟨c', hc', hform⟩
          · rw [mem_namesOf_iff_isSome, hcnone] at hin
            cases hin
          · rcases hform with hform | hform
            · exact (hcfree c' hc').1 hform
            · exact (hcfree c' hc').2 hform
        · exact hcl'
      have hinv1' : ∀ x, x ∈ namesOf acc' →
          x ∈ namesOf df ∨ ∃ c' ∈ L, x = c' ++ s6 ∨ x = c' ++ s8 := by
        intro x hx
        rcases hup x hx with hx' | hx' | hx'
        · exact hinv1 x hx'
        · exact Or.inr ⟨a, hsub a (List.mem_cons_self a l), Or.inl hx'⟩
        · exact Or.inr ⟨a, hsub a (List.mem_cons_self a l), Or.inr hx'⟩
      have hinv2' : ∀ x, x ∈ namesOf df → x ∈ namesOf acc' :=
        fun x hx => hdown x (hinv2 x hx)
      obtain ⟨c'', hc''l, hc''none, herr⟩ :=
        ih acc' (fun b hb => hsub b (List.mem_cons_of_mem a hb)) hinv1' hinv2'
          ⟨c, hcl', hcnone, hcfree⟩
      refine ⟨c'', List.mem_cons_of_mem a hc''l, hc''none, ?_⟩
      rw [List.foldlM_cons, hstep]
      simpa using herr

/-! ### Claims -/

/-- C1, counterexample: the spec's scenario claims the Confidential
Resolver with method `mediana` on `[-6, -8, 10, -6, 5]` returns
`[-6, 7.5, 10, -6, 7.5]`.  It does not: only the `-8` cell is masked
for substitution, so the ordinary value `5` in the last row is kept. -/
theorem claim1_counterexample :
    tratar_confidencial [("pop", .num [some (-6), some (-8), some 10, some (-6), some 5])]
      none "mediana" 3 ≠
    .ok [("pop", .num [some (-6), some (15/2), some 10, some (-6), some (15/2)])] := by
  norm_num [tratar_confidencial, METODOS_CONF, numericNames, ColData.isNum, selectWith,
    getCol, hasVal, tratarConfCol, validValues, medianQ, sortQ, insertOrd, mapCol,
    List.filterMap_cons, Option.some.injEq]
  simp
  norm_num

/-- C1, amended: the Confidential Resolver with method `mediana` on
`[-6, -8, 10, -6, 5]` computes the median over the eligible values
`{10, 5}` (both sentinels excluded), obtaining `7.5`, and replaces only
the CONFIDENTIAL cell: the result is `[-6, 7.5, 10, -6, 5]`. -/
theorem claim1_amended :
    tratar_confidencial [("pop", .num [some (-6), some (-8), some 10, some (-6), some 5])]
      none "mediana" 3 =
    .ok [("pop", .num [some (-6), some (15/2), some 10, some (-6), some 5])] := by
  norm_num [tratar_confidencial, METODOS_CONF, numericNames, ColData.isNum, selectWith,
    getCol, hasVal, tratarConfCol, validValues, medianQ, sortQ, insertOrd, mapCol,
    List.filterMap_cons, Option.some.injEq]
  simp

/-- C3: for every input table and every imputation-method string outside
the five-value enumeration, the Confidential Resolver fails with the
configuration error naming the method — uniformly in the table, i.e.
before any table access; in this pure embedding no table is produced, so
the input (which is never mutated) is trivially unchanged. -/
theorem claim3_invalid_method (df : Table) (cols : Option (List String))
    (metodo : String) (vb : ℚ) (h : metodo ∉ METODOS_CONF) :
    tratar_confidencial df cols metodo vb = .error (.badMethod metodo) := by
  unfold tratar_confidencial
  rw [if_neg h]

/-- Witness for C3 at the method string `"promedio"`. -/
theorem claim3_witness :
    "promedio" ∉ METODOS_CONF ∧
    tratar_confidencial [("pop", ColData.num [some (-8), some 2])] (some ["pop"])
      "promedio" 3 = .error (.badMethod "promedio") :=
  ⟨by decide, claim3_invalid_method _ _ _ _ (by decide)⟩

/-- C8: on a table with zero rows the Diagnostic Summarizer raises no
division-by-zero failure (it is a total function here; the internal
percentage of a zero-row column is the non-finite marker `none`) and the
returned report is empty — hence, vacuously, every percentage in the
returned report is 0. -/
theorem claim8_empty_table (df : Table) (hwf : ∀ e ∈ df, e.2.len = nRows df)
    (h0 : nRows df = 0) : diagnostico_censurados df = [] := by
  unfold diagnostico_censurados
  rw [List.filter_eq_nil_iff]
  intro r hr
  obtain ⟨e, he, hre⟩ := List.mem_map.mp hr
  have hmem := (List.mem_filter.mp he).1
  have hlen : e.2.len = 0 := by rw [hwf e hmem, h0]
  subst hre
  cases hd : e.2 with
  | num vs =>
    rw [hd] at hlen
    have hnil : vs = [] := List.eq_nil_of_length_eq_zero hlen
    subst hnil
    simp [countEq]
  | bools vs => simp [countEq]
  | strs vs => simp [countEq]

/-- Witness for C8 at a one-column, zero-row table. -/
theorem claim8_witness :
    (∀ e ∈ [(("a" : String), ColData.num [])], e.2.len = nRows [(("a" : String), ColData.num [])]) ∧
    nRows [(("a" : String), ColData.num [])] = 0 ∧
    diagnostico_censurados [(("a" : String), ColData.num [])] = [] :=
  ⟨by decide, by decide, claim8_empty_table _ (by decide) (by decide)⟩

/-- C5: a column without the relevant sentinel is never changed by a
resolver call (Not-Applicable: no `-6`; Confidential: no `-8`; Combined:
neither), and the flag-marker loop body emits no flag column derived from
a column containing neither sentinel (so no all-false flag is produced
from it) and leaves the table as it was. -/
theorem claim5_no_sentinel_no_change :
    (∀ (df : Table) (cols : Option (List String)) (r : ℚ) (t : Table) (c : String) (d : ColData),
      tratar_no_aplica df cols r = .ok t → getCol df c = some d → hasVal (-6) d = false →
      getCol t c = some d) ∧
    (∀ (df : Table) (cols : Option (List String)) (metodo : String) (vb : ℚ) (t : Table)
      (c : String) (d : ColData),
      tratar_confidencial df cols metodo vb = .ok t → getCol df c = some d →
      hasVal (-8) d = false → getCol t c = some d) ∧
    (∀ (df : Table) (cols : Option (List String)) (metodo : String) (vb r : ℚ) (t : Table)
      (c : String) (d : ColData),
      tratar_censurados df cols metodo vb r = .ok t → getCol df c = some d →
      hasVal (-6) d = false → hasVal (-8) d = false → getCol t c = some d) ∧
    (∀ (acc : Table) (c : String) (d : ColData) (s6 s8 : String),
      getCol acc c = some d → hasVal (-6) d = false → hasVal (-8) d = false →
      marcarStep s6 s8 acc c = .ok acc) := by
  have h1 : ∀ (df : Table) (cols : Option (List String)) (r : ℚ) (t : Table) (c : String)
      (d : ColData), tratar_no_aplica df cols r = .ok t → getCol df c = some d →
      hasVal (-6) d = false → getCol t c = some d := by
    intro df cols r t c d hok hc h6
    rw [getCol_tratar_no_aplica df cols r t c hok, hc,
      kCount_eq_zero df cols _ c ((pTest_of_getCol df _ c d hc).trans h6)]
    rfl
  have h2 : ∀ (df : Table) (cols : Option (List String)) (metodo : String) (vb : ℚ) (t : Table)
      (c : String) (d : ColData), tratar_confidencial df cols metodo vb = .ok t →
      getCol df c = some d → hasVal (-8) d = false → getCol t c = some d := by
    intro df cols metodo vb t c d hok hc h8
    rw [getCol_tratar_confidencial df cols metodo vb t c hok, hc,
      kCount_eq_zero df cols _ c ((pTest_of_getCol df _ c d hc).trans h8)]
    rfl
  refine ⟨h1, h2, ?_, ?_⟩
  · intro df cols metodo vb r t c d hok hc h6 h8
    obtain ⟨m, hm1, hm2⟩ := tratar_censurados_ok_elim df cols metodo vb r t hok
    exact h2 m cols metodo vb t c d hm2 (h1 df cols r m c d hm1 hc h6) h8
  · intro acc c d s6 s8 hc h6 h8
    simp [marcarStep, hc, h6, h8]

/-- Witness for C5: a sentinel-free column is left alone by the
Not-Applicable Resolver and by the flag-marker loop body. -/
theorem claim5_witness :
    tratar_no_aplica [("a", ColData.num [some 1])] none 0 = .ok [("a", ColData.num [some 1])] ∧
    getCol [("a", ColData.num [some 1])] "a" = some (ColData.num [some 1]) ∧
    hasVal (-6) (ColData.num [some 1]) = false ∧
    getCol [("a", ColData.num [some 1])] "a" = some (ColData.num [some 1]) ∧
    marcarStep "_f6" "_f8" [("a", ColData.num [some 1])] "a" = .ok [("a", ColData.num [some 1])] :=
  ⟨by decide, by decide, by decide,
    claim5_no_sentinel_no_change.1 [("a", ColData.num [some 1])] none 0
      [("a", ColData.num [some 1])] "a" (ColData.num [some 1])
      (by decide) (by decide) (by decide),
    claim5_no_sentinel_no_change.2.2.2 [("a", ColData.num [some 1])] "a"
      (ColData.num [some 1]) "_f6" "_f8" (by decide) (by decide) (by decide)⟩

/-- C6: each resolver (Not-Applicable, Confidential, Combined) returns a
table with the same labels in the same order, the same row count, every
non-numeric column unchanged, and every column of its original length;
the input table is a distinct, never-mutated value in this pure
embedding. -/
theorem claim6_frame :
    (∀ (df : Table) (cols : Option (List String)) (r : ℚ) (t : Table),
      tratar_no_aplica df cols r = .ok t →
      namesOf t = namesOf df ∧ nRows t = nRows df ∧
      (∀ c d, getCol df c = some d → d.isNum = false → getCol t c = some d) ∧
      (∀ c d d', getCol df c = some d → getCol t c = some d' → d'.len = d.len)) ∧
    (∀ (df : Table) (cols : Option (List String)) (metodo : String) (vb : ℚ) (t : Table),
      tratar_confidencial df cols metodo vb = .ok t →
      namesOf t = namesOf df ∧ nRows t = nRows df ∧
      (∀ c d, getCol df c = some d → d.isNum = false → getCol t c = some d) ∧
      (∀ c d d', getCol df c = some d → getCol t c = some d' → d'.len = d.len)) ∧
    (∀ (df : Table) (cols : Option (List String)) (metodo : String) (vb r : ℚ) (t : Table),
      tratar_censurados df cols metodo vb r = .ok t →
      namesOf t = namesOf df ∧ nRows t = nRows df ∧
      (∀ c d, getCol df c = some d → d.isNum = false → getCol t c = some d) ∧
      (∀ c d d', getCol df c = some d → getCol t c = some d' → d'.len = d.len)) := by
  have h1 : ∀ (df : Table) (cols : Option (List String)) (r : ℚ) (t : Table),
      tratar_no_aplica df cols r = .ok t →
      namesOf t = namesOf df ∧ nRows t = nRows df ∧
      (∀ c d, getCol df c = some d → d.isNum = false → getCol t c = some d) ∧
      (∀ c d d', getCol df c = some d → getCol t c = some d' → d'.len = d.len) := by
    intro df cols r t hok
    obtain ⟨-, ht⟩ := tratar_no_aplica_ok_elim df cols r t hok
    rw [ht]
    exact frame_of_keyed_map df
      (fun n d => (replaceVal (-6) (some r))^[kCount df cols (hasVal (-6)) n] d)
      (fun n d => len_iterate _ (replaceVal_len (-6) (some r)) _ d)
      (fun n d hd => Function.iterate_fixed (replaceVal_nonNum (-6) (some r) d hd) _)
  have h2 : ∀ (df : Table) (cols : Option (List String)) (metodo : String) (vb : ℚ) (t : Table),
      tratar_confidencial df cols metodo vb = .ok t →
      namesOf t = namesOf df ∧ nRows t = nRows df ∧
      (∀ c d, getCol df c = some d → d.isNum = false → getCol t c = some d) ∧
      (∀ c d d', getCol df c = some d → getCol t c = some d' → d'.len = d.len) := by
    intro df cols metodo vb t hok
    obtain ⟨-, -, ht⟩ := tratar_confidencial_ok_elim df cols metodo vb t hok
    rw [ht]
    exact frame_of_keyed_map df
      (fun n d => (tratarConfCol metodo vb)^[kCount df cols (hasVal (-8)) n] d)
      (fun n d => len_iterate _ (tratarConfCol_len metodo vb) _ d)
      (fun n d hd => Function.iterate_fixed (tratarConfCol_nonNum metodo vb d hd) _)
  refine ⟨h1, h2, ?_⟩
  intro df cols metodo vb r t hok
  obtain ⟨m, hm1, hm2⟩ := tratar_censurados_ok_elim df cols metodo vb r t hok
  obtain ⟨hn1, hr1, hnn1, hl1⟩ := h1 df cols r m hm1
  obtain ⟨hn2, hr2, hnn2, hl2⟩ := h2 m cols metodo vb t hm2
  refine ⟨hn2.trans hn1, hr2.trans hr1, ?_, ?_⟩
  · intro c d hc hd
    exact hnn2 c d (hnn1 c d hc hd) hd
  · intro c d d' hc hc'
    have hsome : (getCol m c).isSome := by
      rw [← mem_namesOf_iff_isSome, hn1, mem_namesOf_iff_isSome, hc]
      rfl
    obtain ⟨dm, hdm⟩ := Option.isSome_iff_exists.mp hsome
    exact (hl2 c dm d' hdm hc').trans (hl1 c d dm hc hdm)

/-- Witness for C6: a mixed numeric/string table through the combined
treatment. -/
theorem claim6_witness :
    tratar_censurados [("a", ColData.num [some (-6), some (-8)]), ("s", ColData.strs ["x", "y"])]
      none "cero" 3 0
      = .ok [("a", ColData.num [some 0, some 0]), ("s", ColData.strs ["x", "y"])] ∧
    (namesOf [("a", ColData.num [some 0, some 0]), ("s", ColData.strs ["x", "y"])]
      = namesOf [("a", ColData.num [some (-6), some (-8)]), ("s", ColData.strs ["x", "y"])] ∧
     nRows [("a", ColData.num [some 0, some 0]), ("s", ColData.strs ["x", "y"])]
      = nRows [("a", ColData.num [some (-6), some (-8)]), ("s", ColData.strs ["x", "y"])] ∧
     (∀ c d, getCol [("a", ColData.num [some (-6), some (-8)]), ("s", ColData.strs ["x", "y"])] c
          = some d → d.isNum = false →
        getCol [("a", ColData.num [some 0, some 0]), ("s", ColData.strs ["x", "y"])] c = some d) ∧
     (∀ c d d', getCol [("a", ColData.num [some (-6), some (-8)]), ("s", ColData.strs ["x", "y"])] c
          = some d →
        getCol [("a", ColData.num [some 0, some 0]), ("s", ColData.strs ["x", "y"])] c = some d' →
        d'.len = d.len)) :=
  ⟨by decide, claim6_frame.2.2 _ none "cero" 3 0 _ (by decide)⟩

/-- C4: the Not-Applicable Resolver is idempotent — re-applying it with
the same column selection and replacement value to a successful result
returns that result unchanged, because the first pass leaves no
NOT_APPLICABLE cell behind (and when the replacement value is `-6`
itself, the first pass was already the identity). -/
theorem claim4_idempotent (df : Table) (cols : Option (List String)) (r : ℚ) (t : Table)
    (h : tratar_no_aplica df cols r = .ok t) : tratar_no_aplica t cols r = .ok t := by
  obtain ⟨hall, ht⟩ := tratar_no_aplica_ok_elim df cols r t h
  by_cases hr : r = -6
  · have htdf : t = df := by
      rw [ht]
      have hfix : ∀ e : String × ColData,
          (replaceVal (-6) (some r))^[kCount df cols (hasVal (-6)) e.1] e.2 = e.2 := by
        intro e
        exact Function.iterate_fixed (hr ▸ replaceVal_self (-6) e.2) _
      calc df.map (fun e => (e.1, (replaceVal (-6) (some r))^[kCount df cols (hasVal (-6)) e.1] e.2))
          = df.map (fun e => (e.1, e.2)) := List.map_congr_left (fun e _ => by rw [hfix e])
        _ = df := by simp
    rw [htdf] at h ⊢
    exact h
  · have hnames : cols.getD (numericNames t) = cols.getD (numericNames df) := by
      cases cols with
      | none => simp [numericNames_tratar_no_aplica df none r t h]
      | some l => rfl
    have hall_t : ∀ c ∈ cols.getD (numericNames t), (getCol t c).isSome := by
      intro c hc
      rw [hnames] at hc
      rw [getCol_tratar_no_aplica df cols r t c h]
      obtain ⟨d, hd⟩ := Option.isSome_iff_exists.mp (hall c hc)
      simp [hd]
    have hfilt : (cols.getD (numericNames t)).filter (pTest t (hasVal (-6))) = [] := by
      rw [List.filter_eq_nil_iff, hnames]
      intro c hc
      obtain ⟨d, hd⟩ := Option.isSome_iff_exists.mp (hall c hc)
      have hcol := getCol_tratar_no_aplica df cols r t c h
      rw [hd] at hcol
      by_cases hp : pTest df (hasVal (-6)) c
      · have hpos : 0 < kCount df cols (hasVal (-6)) c := by
          refine List.count_pos_iff.mpr (List.mem_filter.mpr ⟨hc, ?_⟩)
          exact hp
        obtain ⟨j, hj⟩ := Nat.exists_eq_succ_of_ne_zero (Nat.pos_iff_ne_zero.mp hpos)
        rw [hj] at hcol
        have hcol' : getCol t c = some ((replaceVal (-6) (some r))^[j.succ] d) := by
          simpa using hcol
        rw [Function.iterate_succ_apply] at hcol'
        have hstable : (replaceVal (-6) (some r))^[j] (replaceVal (-6) (some r) d)
            = replaceVal (-6) (some r) d :=
          Function.iterate_fixed
            (replaceVal_of_not_hasVal (-6) (some r) _ (hasVal_replaceVal (-6) r d hr)) j
        rw [hstable] at hcol'
        rw [pTest_of_getCol t _ c _ hcol']
        simp [hasVal_replaceVal (-6) r d hr]
      · have hk : kCount df cols (hasVal (-6)) c = 0 :=
          kCount_eq_zero df cols _ c (by simpa using hp)
        rw [hk] at hcol
        simp only [Function.iterate_zero, id] at hcol
        rw [pTest_of_getCol t _ c d hcol]
        have := pTest_of_getCol df (hasVal (-6)) c d hd
        rw [this] at hp
        simpa using hp
    rw [tratar_no_aplica_ok_intro t cols r hall_t]
    have hk0 : ∀ x, kCount t cols (hasVal (-6)) x = 0 := by
      intro x
      unfold kCount
      rw [hfilt]
      rfl
    have : t.map (fun e => (e.1, (replaceVal (-6) (some r))^[kCount t cols (hasVal (-6)) e.1] e.2))
        = t.map (fun e => (e.1, e.2)) :=
      List.map_congr_left (fun e _ => by rw [hk0 e.1]; rfl)
    rw [this]
    simp

/-- Witness for C4 on a column containing `-6`. -/
theorem claim4_witness :
    tratar_no_aplica [("a", ColData.num [some (-6), some 2])] none 0
      = .ok [("a", ColData.num [some 0, some 2])] ∧
    tratar_no_aplica [("a", ColData.num [some 0, some 2])] none 0
      = .ok [("a", ColData.num [some 0, some 2])] :=
  ⟨by decide,
    claim4_idempotent [("a", ColData.num [some (-6), some 2])] none 0
      [("a", ColData.num [some 0, some 2])] (by decide)⟩

/-- C10: for every resolver, the output of column `c` depends only on the
input data of column `c` and the call parameters: two duplicate-free
tables agreeing on `c` produce results agreeing on `c`, however their
other columns differ. -/
theorem claim10_column_independence (df1 df2 : Table) (c : String)
    (h1 : (namesOf df1).Nodup) (h2 : (namesOf df2).Nodup)
    (hagree : getCol df1 c = getCol df2 c) :
    (∀ (cols : Option (List String)) (r : ℚ) (t1 t2 : Table),
      tratar_no_aplica df1 cols r = .ok t1 → tratar_no_aplica df2 cols r = .ok t2 →
      getCol t1 c = getCol t2 c) ∧
    (∀ (cols : Option (List String)) (metodo : String) (vb : ℚ) (t1 t2 : Table),
      tratar_confidencial df1 cols metodo vb = .ok t1 →
      tratar_confidencial df2 cols metodo vb = .ok t2 →
      getCol t1 c = getCol t2 c) ∧
    (∀ (cols : Option (List String)) (metodo : String) (vb r : ℚ) (t1 t2 : Table),
      tratar_censurados df1 cols metodo vb r = .ok t1 →
      tratar_censurados df2 cols metodo vb r = .ok t2 →
      getCol t1 c = getCol t2 c) := by
  have H1 : ∀ (dfa dfb : Table), (namesOf dfa).Nodup → (namesOf dfb).Nodup →
      getCol dfa c = getCol dfb c →
      ∀ (cols : Option (List String)) (r : ℚ) (t1 t2 : Table),
      tratar_no_aplica dfa cols r = .ok t1 → tratar_no_aplica dfb cols r = .ok t2 →
      getCol t1 c = getCol t2 c := by
    intro dfa dfb ha hb hag cols r t1 t2 hok1 hok2
    rw [getCol_tratar_no_aplica dfa cols r t1 c hok1,
      getCol_tratar_no_aplica dfb cols r t2 c hok2, hag,
      kCount_congr dfa dfb cols (hasVal (-6)) c ha hb hag]
  have H2 : ∀ (dfa dfb : Table), (namesOf dfa).Nodup → (namesOf dfb).Nodup →
      getCol dfa c = getCol dfb c →
      ∀ (cols : Option (List String)) (metodo : String) (vb : ℚ) (t1 t2 : Table),
      tratar_confidencial dfa cols metodo vb = .ok t1 →
      tratar_confidencial dfb cols metodo vb = .ok t2 →
      getCol t1 c = getCol t2 c := by
    intro dfa dfb ha hb hag cols metodo vb t1 t2 hok1 hok2
    rw [getCol_tratar_confidencial dfa cols metodo vb t1 c hok1,
      getCol_tratar_confidencial dfb cols metodo vb t2 c hok2, hag,
      kCount_congr dfa dfb cols (hasVal (-8)) c ha hb hag]
  refine ⟨H1 df1 df2 h1 h2 hagree, H2 df1 df2 h1 h2 hagree, ?_⟩
  intro cols metodo vb r t1 t2 hok1 hok2
  obtain ⟨m1, hm1, hc1⟩ := tratar_censurados_ok_elim df1 cols metodo vb r t1 hok1
  obtain ⟨m2, hm2, hc2⟩ := tratar_censurados_ok_elim df2 cols metodo vb r t2 hok2
  have hmn1 : (namesOf m1).Nodup := by
    rw [namesOf_tratar_no_aplica df1 cols r m1 hm1]
    exact h1
  have hmn2 : (namesOf m2).Nodup := by
    rw [namesOf_tratar_no_aplica df2 cols r m2 hm2]
    exact h2
  exact H2 m1 m2 hmn1 hmn2 (H1 df1 df2 h1 h2 hagree cols r m1 m2 hm1 hm2)
    cols metodo vb t1 t2 hc1 hc2

/-- Witness for C10: two tables agreeing only on column `a`. -/
theorem claim10_witness :
    getCol [("a", ColData.num [some (-8)]), ("b", ColData.num [some 1])] "a"
      = getCol [("a", ColData.num [some (-8)]), ("b", ColData.num [some 99]),
                ("z", ColData.strs ["q"])] "a" ∧
    tratar_confidencial [("a", ColData.num [some (-8)]), ("b", ColData.num [some 1])]
      none "cero" 3 = .ok [("a", ColData.num [some 0]), ("b", ColData.num [some 1])] ∧
    tratar_confidencial [("a", ColData.num [some (-8)]), ("b", ColData.num [some 99]),
        ("z", ColData.strs ["q"])] none "cero" 3
      = .ok [("a", ColData.num [some 0]), ("b", ColData.num [some 99]),
             ("z", ColData.strs ["q"])] ∧
    getCol [("a", ColData.num [some 0]), ("b", ColData.num [some 1])] "a"
      = getCol [("a", ColData.num [some 0]), ("b", ColData.num [some 99]),
                ("z", ColData.strs ["q"])] "a" :=
  ⟨by decide, by decide, by decide,
    (claim10_column_independence
        [("a", ColData.num [some (-8)]), ("b", ColData.num [some 1])]
        [("a", ColData.num [some (-8)]), ("b", ColData.num [some 99]), ("z", ColData.strs ["q"])]
        "a" (by decide) (by decide) (by decide)).2.1 none "cero" 3
      [("a", ColData.num [some 0]), ("b", ColData.num [some 1])]
      [("a", ColData.num [some 0]), ("b", ColData.num [some 99]), ("z", ColData.strs ["q"])]
      (by decide) (by decide)⟩

/-- C2: for a column the Confidential Resolver treats with method
`mediana` or `media` (selected, containing `-8`, under a duplicate-free
selection), the statistic is computed over exactly the column's values
that are not `-6`, not `-8` and not negative; every `-8` cell receives
the median (unrounded) resp. the mean rounded to one decimal, and 0 when
no value is eligible; all other cells are unchanged. -/
theorem claim2_stat_over_eligible (df : Table) (cols : Option (List String))
    (metodo : String) (vb : ℚ) (t : Table) (c : String) (vs : List Cell)
    (hm : metodo = "mediana" ∨ metodo = "media")
    (hnd : (cols.getD (numericNames df)).Nodup)
    (hok : tratar_confidencial df cols metodo vb = .ok t)
    (hc : getCol df c = some (.num vs))
    (hsel : c ∈ cols.getD (numericNames df))
    (h8 : some (-8) ∈ vs) :
    validValues vs = vs.filterMap (fun x => x.bind (fun v =>
      if v ≠ -6 ∧ v ≠ -8 ∧ ¬ v < 0 then some v else none)) ∧
    getCol t c = some (.num (vs.map (fun x => if x = some (-8) then
      some (if validValues vs = [] then 0
            else if metodo = "mediana" then medianQ (validValues vs)
            else round1 (meanQ (validValues vs))) else x))) := by
  refine ⟨validValues_eq_spec vs, ?_⟩
  have hp : pTest df (hasVal (-8)) c = true := by
    rw [pTest_of_getCol df _ c _ hc]
    simp only [hasVal, List.any_eq_true, decide_eq_true_eq]
    exact ⟨some (-8), h8, rfl⟩
  have hk : kCount df cols (hasVal (-8)) c = 1 := by
    have hmem : c ∈ (cols.getD (numericNames df)).filter (pTest df (hasVal (-8))) :=
      List.mem_filter.mpr ⟨hsel, hp⟩
    have hle : List.count c ((cols.getD (numericNames df)).filter (pTest df (hasVal (-8)))) ≤ 1 :=
      List.nodup_iff_count_le_one.mp (List.Nodup.filter _ hnd) c
    have hpos := List.count_pos_iff.mpr hmem
    exact Nat.le_antisymm hle hpos
  rw [getCol_tratar_confidencial df cols metodo vb t c hok, hc, hk, Function.iterate_one]
  show some (tratarConfCol metodo vb (ColData.num vs)) = _
  rcases hm with rfl | rfl
  · rw [tratarConfCol_mediana]
    simp
  · rw [tratarConfCol_media]
    simp

/-- Witness for C2 with method `mediana` on the column `[-8, 2]`:
the eligible set is `[2]`, its median is `2`. -/
theorem claim2_witness :
    (some (ColData.num [some (-8), some 2]) : Option ColData)
      = getCol [("pop", ColData.num [some (-8), some 2])] "pop" ∧
    tratar_confidencial [("pop", ColData.num [some (-8), some 2])] none "mediana" 3
      = .ok [("pop", ColData.num [some 2, some 2])] ∧
    getCol [("pop", ColData.num [some 2, some 2])] "pop"
      = some (.num (([some (-8), some 2] : List Cell).map (fun x => if x = some (-8) then
          some (if validValues [some (-8), some 2] = [] then 0
                else if "mediana" = "mediana" then medianQ (validValues [some (-8), some 2])
                else round1 (meanQ (validValues [some (-8), some 2]))) else x))) :=
  ⟨by decide, by decide,
    (claim2_stat_over_eligible [("pop", ColData.num [some (-8), some 2])] none "mediana" 3
      [("pop", ColData.num [some 2, some 2])] "pop" [some (-8), some 2]
      (Or.inl rfl) (by decide) (by decide) (by decide) (by decide) (by decide)).2⟩

/-- C9, counterexample: the flag marker does NOT always fail on a
selection containing a non-column name — when an earlier column's freshly
created flag column has exactly the missing name, the later lookup finds
it and the call succeeds. -/
theorem claim9_counterexample :
    getCol [("a", ColData.num [some (-6)])] "a_flag_na" = none ∧
    marcar_censurados [("a", ColData.num [some (-6)])] (some ["a", "a_flag_na"])
      "_flag_na" "_flag_conf"
      = .ok [("a", ColData.num [some (-6)]), ("a_flag_na", ColData.bools [true])] := by
  constructor <;> decide

/-- C9, amended: with an explicit selection containing a name absent from
the input table, both resolvers fail with a column-lookup error naming an
absent selected label (the confidential resolver only after its method
string passed validation — the selection is not validated up front); the
flag marker fails likewise provided the absent name is not of the form
`selected-label ++ suffix`, i.e. cannot coincide with a flag column
created earlier in the same scan. -/
theorem claim9_missing_column_error :
    (∀ (df : Table) (l : List String) (r : ℚ),
      (∃ c ∈ l, getCol df c = none) →
      ∃ c ∈ l, getCol df c = none ∧
        tratar_no_aplica df (some l) r = .error (.missingColumn c)) ∧
    (∀ (df : Table) (l : List String) (metodo : String) (vb : ℚ),
      metodo ∈ METODOS_CONF → (∃ c ∈ l, getCol df c = none) →
      ∃ c ∈ l, getCol df c = none ∧
        tratar_confidencial df (some l) metodo vb = .error (.missingColumn c)) ∧
    (∀ (df : Table) (l : List String) (s6 s8 : String),
      (∃ c ∈ l, getCol df c = none ∧ ∀ c' ∈ l, c ≠ c' ++ s6 ∧ c ≠ c' ++ s8) →
      ∃ c ∈ l, getCol df c = none ∧
        marcar_censurados df (some l) s6 s8 = .error (.missingColumn c)) := by
  refine ⟨?_, ?_, ?_⟩
  · intro df l r hex
    obtain ⟨c, hcl, hcnone, herr⟩ := selectWith_err df (hasVal (-6)) l hex
    refine ⟨c, hcl, hcnone, ?_⟩
    unfold tratar_no_aplica
    simp only [Option.getD_some]
    rw [herr]
  · intro df l metodo vb hm hex
    obtain ⟨c, hcl, hcnone, herr⟩ := selectWith_err df (hasVal (-8)) l hex
    refine ⟨c, hcl, hcnone, ?_⟩
    unfold tratar_confidencial
    rw [if_pos hm]
    simp only [Option.getD_some]
    rw [herr]
  · intro df l s6 s8 hex
    obtain ⟨c, hcl, hcnone, herr⟩ :=
      marcar_foldlM_err s6 s8 df l l df (fun a ha => ha) (fun x hx => Or.inl hx)
        (fun x hx => hx) hex
    refine ⟨c, hcl, hcnone, ?_⟩
    unfold marcar_censurados
    simpa using herr

/-- Witness for the amended C9: the missing label `"b"` makes the
Not-Applicable Resolver and the flag marker fail. -/
theorem claim9_witness :
    (∃ c ∈ ["b"], getCol [("a", ColData.num [some 1])] c = none ∧
      tratar_no_aplica [("a", ColData.num [some 1])] (some ["b"]) 0
        = .error (.missingColumn c)) ∧
    (∃ c ∈ ["b"], getCol [("a", ColData.num [some 1])] c = none ∧
      marcar_censurados [("a", ColData.num [some 1])] (some ["b"]) "_f6" "_f8"
        = .error (.missingColumn c)) :=
  ⟨claim9_missing_column_error.1 [("a", ColData.num [some 1])] ["b"] 0 (by decide),
   claim9_missing_column_error.2.2 [("a", ColData.num [some 1])] ["b"] "_f6" "_f8" (by decide)⟩

/-- C7: the flag-marker loop body appends the new flag columns after all
existing columns, the NOT_APPLICABLE flag before the CONFIDENTIAL flag,
provided the derived names are fresh and the suffixes differ; and on the
column `pop = [-6, -8, 10, -6, 5]` with the default suffixes the call
produces `pop_flag_na = [T,F,F,T,F]` and `pop_flag_conf = [F,T,F,F,F]`,
each flag true exactly at the rows holding the sentinel. -/
theorem claim7_flag_columns :
    (∀ (acc : Table) (c : String) (d : ColData) (s6 s8 : String),
      getCol acc c = some d → (c ++ s6) ∉ namesOf acc → (c ++ s8) ∉ namesOf acc → s6 ≠ s8 →
      marcarStep s6 s8 acc c = .ok (acc
        ++ (if hasVal (-6) d then [(c ++ s6, flagEq (-6) d)] else [])
        ++ (if hasVal (-8) d then [(c ++ s8, flagEq (-8) d)] else []))) ∧
    marcar_censurados [("pop", .num [some (-6), some (-8), some 10, some (-6), some 5])]
      none "_flag_na" "_flag_conf" =
    .ok [("pop", .num [some (-6), some (-8), some 10, some (-6), some 5]),
         ("pop_flag_na", .bools [true, false, false, true, false]),
         ("pop_flag_conf", .bools [false, true, false, false, false])] := by
  constructor
  · intro acc c d s6 s8 hc h6n h8n hss
    have hne : (c ++ s6) ≠ (c ++ s8) := fun h => hss (string_append_left_cancel c s6 s8 h)
    unfold marcarStep
    rw [hc]
    dsimp only
    by_cases t6 : hasVal (-6) d
    · rw [if_pos t6, setOrAppend_fresh acc (c ++ s6) _ h6n,
        getCol_append_left acc _ c d hc]
      by_cases t8 : hasVal (-8) d
      · have h8n' : (c ++ s8) ∉ namesOf (acc ++ [(c ++ s6, flagEq (-6) d)]) := by
          intro hmem
          simp only [namesOf, List.map_append, List.mem_append, List.map_cons,
            List.map_nil, List.mem_singleton] at hmem
          rcases hmem with hmem | hmem
          · exact h8n hmem
          · exact hne hmem.symm
        rw [if_pos t8, setOrAppend_fresh _ _ _ h8n']
        rw [if_pos t6, if_pos t8]
        rfl
      · rw [if_neg t8, if_pos t6, if_neg t8, List.append_nil]
    · rw [if_neg t6, hc]
      by_cases t8 : hasVal (-8) d
      · rw [if_pos t8, setOrAppend_fresh acc (c ++ s8) _ h8n, if_neg t6, if_pos t8]
        simp
      · rw [if_neg t8, if_neg t6, if_neg t8, List.append_nil, List.append_nil]
  · decide

/-- Witness for C7's general part at the scenario column. -/
theorem claim7_witness :
    getCol [("pop", ColData.num [some (-6), some (-8), some 10, some (-6), some 5])] "pop"
      = some (ColData.num [some (-6), some (-8), some 10, some (-6), some 5]) ∧
    marcarStep "_flag_na" "_flag_conf"
      [("pop", ColData.num [some (-6), some (-8), some 10, some (-6), some 5])] "pop"
      = .ok ([("pop", ColData.num [some (-6), some (-8), some 10, some (-6), some 5])]
        ++ (if hasVal (-6) (ColData.num [some (-6), some (-8), some 10, some (-6), some 5])
            then [("pop" ++ "_flag_na",
              flagEq (-6) (ColData.num [some (-6), some (-8), some 10, some (-6), some 5]))]
            else [])
        ++ (if hasVal (-8) (ColData.num [some (-6), some (-8), some 10, some (-6), some 5])
            then [("pop" ++ "_flag_conf",
              flagEq (-8) (ColData.num [some (-6), some (-8), some 10, some (-6), some 5]))]
            else [])) :=
  ⟨by decide,
    claim7_flag_columns.1
      [("pop", ColData.num [some (-6), some (-8), some 10, some (-6), some 5])] "pop"
      (ColData.num [some (-6), some (-8), some 10, some (-6), some 5])
      "_flag_na" "_flag_conf" (by decide) (by decide) (by decide) (by decide)⟩

end Censo
